import Mathlib

/-!
Shallow embedding of the zapmenu authentication/authorization core
(`src/server/src/helpers/auth.helper.ts`, `src/server/src/helpers/jwt.helper.ts`,
the auth routes and the auth middleware), together with proofs settling the
frozen claims about its specification.

Conventions:
* machine numbers are `Nat`/`Int`; timestamps are `Nat` milliseconds;
* the relational store is an explicit state value threaded through operations;
* JavaScript strings are `String`/`List Char`;
* fallible repository calls are modelled by explicit failure flags mirroring
  the `try`/`catch` structure of the source.
-/

set_option maxRecDepth 10000

/-! ## Decimal digit rendering (model of JavaScript `Number.prototype.toString`) -/

/-- The character for a single decimal digit (`0 ≤ n ≤ 9`; larger inputs clamp to '9',
which never occurs in our uses since they are always `_ % 10` or bounded). -/
def digitCh (n : Nat) : Char :=
  match n with
  | 0 => '0' | 1 => '1' | 2 => '2' | 3 => '3' | 4 => '4'
  | 5 => '5' | 6 => '6' | 7 => '7' | 8 => '8' | _ => '9'

/-- Fuel-driven decimal rendering accumulator, mirroring the structure of a
division loop producing most-significant-first digits. -/
def toDecAux : Nat → Nat → List Char → List Char
  | 0, _, acc => acc
  | fuel + 1, n, acc =>
    if n < 10 then digitCh n :: acc
    else toDecAux fuel (n / 10) (digitCh (n % 10) :: acc)

/-- Decimal rendering of a natural number, the model of JS `n.toString()`. -/
def natToChars (n : Nat) : List Char := toDecAux (n + 1) n []

/-- Numeric value of a digit character. -/
def chDigitVal (c : Char) : Nat := c.toNat - 48

/-- Value of a most-significant-first digit string. -/
def digitsVal (l : List Char) : Nat := l.foldl (fun a c => 10 * a + chDigitVal c) 0

theorem digitCh_lt10_cases (d : Nat) (hd : d < 10) :
    digitCh d = '0' ∨ digitCh d = '1' ∨ digitCh d = '2' ∨ digitCh d = '3' ∨
    digitCh d = '4' ∨ digitCh d = '5' ∨ digitCh d = '6' ∨ digitCh d = '7' ∨
    digitCh d = '8' ∨ digitCh d = '9' := by
  interval_cases d <;> simp [digitCh]

theorem toDecAux_fuel (n : Nat) : ∀ fuel acc, n < fuel →
    toDecAux fuel n acc = natToChars n ++ acc := by
  induction n using Nat.strong_induction_on with
  | _ n ih =>
    intro fuel acc hfuel
    match fuel, hfuel with
    | f + 1, hfuel =>
      by_cases h10 : n < 10
      · simp [toDecAux, h10, natToChars]
      · have hn0 : 0 < n := by omega
        have hdiv : n / 10 < n := Nat.div_lt_self hn0 (by norm_num)
        have hdivf : n / 10 < f := by omega
        rw [toDecAux, if_neg h10]
        rw [ih (n / 10) hdiv f _ hdivf]
        show _ = toDecAux (n + 1) n [] ++ acc
        rw [toDecAux, if_neg h10, ih (n / 10) hdiv n _ (by omega)]
        simp

theorem natToChars_lt10 (n : Nat) (h : n < 10) : natToChars n = [digitCh n] := by
  simp [natToChars, toDecAux, h]

theorem natToChars_ge10 (n : Nat) (h : 10 ≤ n) :
    natToChars n = natToChars (n / 10) ++ [digitCh (n % 10)] := by
  have hn0 : 0 < n := by omega
  have hdiv : n / 10 < n := Nat.div_lt_self hn0 (by norm_num)
  show toDecAux (n + 1) n [] = _
  rw [toDecAux, if_neg (by omega)]
  exact toDecAux_fuel (n / 10) n [digitCh (n % 10)] (by omega)

theorem natToChars_ne_nil (n : Nat) : natToChars n ≠ [] := by
  by_cases h : n < 10
  · simp [natToChars_lt10 n h]
  · rw [natToChars_ge10 n (by omega)]
    simp

theorem mem_natToChars_digit {n : Nat} {c : Char} (h : c ∈ natToChars n) :
    ∃ d, d < 10 ∧ c = digitCh d := by
  induction n using Nat.strong_induction_on with
  | _ n ih =>
    by_cases h10 : n < 10
    · rw [natToChars_lt10 n h10] at h
      simp at h
      exact ⟨n, h10, h⟩
    · rw [natToChars_ge10 n (by omega)] at h
      rcases List.mem_append.1 h with h1 | h2
      · exact ih (n / 10) (Nat.div_lt_self (by omega) (by norm_num)) h1
      · simp at h2
        exact ⟨n % 10, Nat.mod_lt _ (by norm_num), h2⟩

theorem chDigitVal_digitCh (d : Nat) (hd : d < 10) : chDigitVal (digitCh d) = d := by
  interval_cases d <;> decide

theorem digitsVal_append (l₁ l₂ : List Char) :
    digitsVal (l₁ ++ l₂) = (l₂.foldl (fun a c => 10 * a + chDigitVal c) (digitsVal l₁)) := by
  simp [digitsVal, List.foldl_append]

theorem digitsVal_natToChars (n : Nat) : digitsVal (natToChars n) = n := by
  induction n using Nat.strong_induction_on with
  | _ n ih =>
    by_cases h10 : n < 10
    · rw [natToChars_lt10 n h10]
      simp [digitsVal, chDigitVal_digitCh n h10]
    · rw [natToChars_ge10 n (by omega), digitsVal_append]
      rw [show (List.foldl (fun a c => 10 * a + chDigitVal c)
        (digitsVal (natToChars (n / 10))) [digitCh (n % 10)]) =
        10 * digitsVal (natToChars (n / 10)) + chDigitVal (digitCh (n % 10)) from rfl]
      rw [ih (n / 10) (Nat.div_lt_self (by omega) (by norm_num))]
      rw [chDigitVal_digitCh (n % 10) (Nat.mod_lt _ (by norm_num))]
      omega

theorem natToChars_inj {m n : Nat} (h : natToChars m = natToChars n) : m = n := by
  have := digitsVal_natToChars m
  rw [h, digitsVal_natToChars] at this
  omega

theorem natToChars_len_pow (k : Nat) : ∀ n, 10 ^ k ≤ n → n < 10 ^ (k + 1) →
    (natToChars n).length = k + 1 := by
  induction k with
  | zero =>
    intro n h1 h2
    rw [natToChars_lt10 n (by simpa using h2)]
    rfl
  | succ k ih =>
    intro n h1 h2
    have h10 : 10 ≤ n := le_trans (by
      calc 10 = 10 ^ 1 := (pow_one 10).symm
      _ ≤ 10 ^ (k + 1) := Nat.pow_le_pow_right (by norm_num) (by omega)) h1
    rw [natToChars_ge10 n h10, List.length_append]
    have hlo : 10 ^ k ≤ n / 10 := by
      rw [Nat.le_div_iff_mul_le (by norm_num)]
      calc 10 ^ k * 10 = 10 ^ (k + 1) := by ring
      _ ≤ n := h1
    have hhi : n / 10 < 10 ^ (k + 1) := by
      rw [Nat.div_lt_iff_lt_mul (by norm_num)]
      calc n < 10 ^ (k + 2) := h2
      _ = 10 ^ (k + 1) * 10 := by ring
    rw [ih (n / 10) hlo hhi]
    rfl

theorem digitCh_isDigit (d : Nat) (hd : d < 10) : (digitCh d).isDigit = true := by
  interval_cases d <;> decide

theorem mem_natToChars_isDigit {n : Nat} {c : Char} (h : c ∈ natToChars n) :
    c.isDigit = true := by
  obtain ⟨d, hd, rfl⟩ := mem_natToChars_digit h
  exact digitCh_isDigit d hd

theorem mem_natToChars_ne_dot {n : Nat} {c : Char} (h : c ∈ natToChars n) : c ≠ '.' := by
  obtain ⟨d, hd, rfl⟩ := mem_natToChars_digit h
  interval_cases d <;> decide

theorem mem_natToChars_ne_semi {n : Nat} {c : Char} (h : c ∈ natToChars n) : c ≠ ';' := by
  obtain ⟨d, hd, rfl⟩ := mem_natToChars_digit h
  interval_cases d <;> decide

/-! ## MFA passcode generation (`generatePasscode`, auth.helper.ts lines 44-46)

`crypto.randomInt(min, max)` returns a uniformly distributed integer `n` with
`min <= n < max` (the upper bound is exclusive in Node's API).  The random source
is modelled by an arbitrary entropy value `r : Nat`; `randomInt` maps it into the
half-open range exactly as the uniform draw does, so the set of reachable results
is `[min, max)`. -/

/-- Model of Node `crypto.randomInt(min, max)`: a uniform draw from `[min, max)`,
the entropy of the CSPRNG supplied as `r`. -/
def randomInt (min max r : Nat) : Nat := min + r % (max - min)

/-- Numeric value drawn by `generatePasscode` for entropy `r`
(auth.helper.ts line 45: `crypto.randomInt(100000, 999999)`). -/
def generatePasscodeVal (r : Nat) : Nat := randomInt 100000 999999 r

/-- `generatePasscode` (auth.helper.ts lines 44-46): renders the drawn value
with `.toString()`. -/
def generatePasscode (r : Nat) : List Char := natToChars (generatePasscodeVal r)

/-- A string matches `^[0-9]{6}$`. -/
def isSixDigitString (l : List Char) : Prop :=
  l.length = 6 ∧ ∀ c ∈ l, c.isDigit = true

instance (l : List Char) : Decidable (isSixDigitString l) := by
  unfold isSixDigitString
  infer_instance

theorem generatePasscodeVal_lb (r : Nat) : 100000 ≤ generatePasscodeVal r :=
  Nat.le_add_right _ _

theorem generatePasscodeVal_ub (r : Nat) : generatePasscodeVal r ≤ 999998 := by
  have : r % (999999 - 100000) < 999999 - 100000 := Nat.mod_lt _ (by norm_num)
  unfold generatePasscodeVal randomInt
  omega

/-! ## Relational store model

`Admin`, `Guest`, `AdminVerification` and `Order` rows mirror the Prisma schema
(`admins`, `guests`, `admin_verifications`, `orders`).  The store is a record of
row lists plus autoincrement counters; repository failure at a given call site is
modelled by explicit flags mirroring the `try`/`catch` structure of the helpers. -/

structure Admin where
  id : Nat
  name : String
  email : String
  phone : String
  hotelId : Nat
deriving DecidableEq, Repr

structure Guest where
  id : Nat
  name : String
  email : String
deriving DecidableEq, Repr

structure AdminVerification where
  id : Nat
  adminId : Nat
  passcode : List Char
  expiresAt : Nat
  used : Bool
  createdAt : Nat
deriving DecidableEq, Repr

structure OrderRow where
  id : Nat
  guestId : Nat
  hotelId : Nat
deriving DecidableEq, Repr

structure DB where
  admins : List Admin
  guests : List Guest
  verifications : List AdminVerification
  orders : List OrderRow
  nextVerificationId : Nat
  nextGuestId : Nat
deriving DecidableEq, Repr

/-- `prisma.admin.findUnique({ where: { email } })`. -/
def findAdminByEmail (db : DB) (email : String) : Option Admin :=
  db.admins.find? (fun a => a.email = email)

/-- `prisma.admin.findUnique({ where: { id } })` (`getAdminById`, auth.helper.ts 266-276;
the catch branch returning `null` on repository failure is modelled at the call sites
that can observe it). -/
def getAdminById (db : DB) (adminId : Nat) : Option Admin :=
  db.admins.find? (fun a => a.id = adminId)

/-- `prisma.guest.findUnique({ where: { id } })` (`getGuestById`, auth.helper.ts 281-290). -/
def getGuestById (db : DB) (guestId : Nat) : Option Guest :=
  db.guests.find? (fun g => g.id = guestId)

/-- A verification row matches the `where` clause of the `findFirst` in
`verifyAdminPasscode` (auth.helper.ts 124-136): same admin, exact passcode string
equality, `used: false`, `expiresAt: { gt: now }`. -/
def verificationMatches (adminId : Nat) (passcode : List Char) (now : Nat)
    (v : AdminVerification) : Bool :=
  v.adminId = adminId && v.passcode = passcode && v.used = false && now < v.expiresAt

/-- `findFirst` with `orderBy: { createdAt: "desc" }`: among matching rows, the one
with the greatest `createdAt` (first such row on ties). -/
def findLatestVerification (db : DB) (adminId : Nat) (passcode : List Char)
    (now : Nat) : Option AdminVerification :=
  (db.verifications.filter (verificationMatches adminId passcode now)).foldl
    (fun acc v =>
      match acc with
      | none => some v
      | some b => if b.createdAt < v.createdAt then some v else acc)
    none

/-- `prisma.adminVerification.update({ where: { id }, data: { used: true } })`
(auth.helper.ts 146-149).  The `where` clause selects by `id` only: the update is
unconditional on the current `used` value. -/
def markVerificationUsed (db : DB) (vid : Nat) : DB :=
  { db with verifications :=
      db.verifications.map (fun v => if v.id = vid then { v with used := true } else v) }

/-- `prisma.adminVerification.deleteMany` of the admin's used records older than
24 hours (auth.helper.ts 152-160). -/
def cleanupOldVerifications (db : DB) (adminId : Nat) (now : Nat) : DB :=
  { db with verifications :=
      db.verifications.filter (fun v =>
        !(v.adminId = adminId && v.used = true && v.expiresAt < now - 24 * 60 * 60 * 1000)) }

structure VerifyPasscodeResult where
  success : Bool
  adminId : Option Nat
  hotelId : Option Nat
  message : String
deriving DecidableEq, Repr

/-- Read phase of `verifyAdminPasscode` (auth.helper.ts 110-143): resolve the admin
by email, then `findFirst` the latest matching unused unexpired verification.
No store mutation happens in this phase. -/
def verifyFindPhase (db : DB) (now : Nat) (email : String) (passcode : List Char) :
    Option (Admin × Option AdminVerification) :=
  match findAdminByEmail db email with
  | none => none
  | some admin => some (admin, findLatestVerification db admin.id passcode now)

/-- Write phase of `verifyAdminPasscode` (auth.helper.ts 145-175) given the row id
observed by the read phase: mark that row used (update keyed by `id` alone), then
run the cleanup `deleteMany`.  `cleanupThrows` models the repository rejecting the
`deleteMany` call; the surrounding `try`/`catch` then returns the generic failure
result — after the `update` has already been applied. -/
def verifyWritePhase (db : DB) (admin : Admin) (vid : Nat) (now : Nat)
    (cleanupThrows : Bool) : VerifyPasscodeResult × DB :=
  let db1 := markVerificationUsed db vid
  if cleanupThrows then
    (⟨false, none, none, "Failed to verify passcode"⟩, db1)
  else
    (⟨true, some admin.id, some admin.hotelId, "Passcode verified successfully"⟩,
      cleanupOldVerifications db1 admin.id now)

/-- `verifyAdminPasscode(email, passcode)` (auth.helper.ts 105-175).  A sequential
call is the read phase immediately followed by the write phase on the same store
state; the interleaved execution of two concurrent calls is modelled separately
from the same two phases. -/
def verifyAdminPasscode (db : DB) (now : Nat) (cleanupThrows : Bool)
    (email : String) (passcode : List Char) : VerifyPasscodeResult × DB :=
  match verifyFindPhase db now email passcode with
  | none => (⟨false, none, none, "Admin not found"⟩, db)
  | some (_, none) => (⟨false, none, none, "Invalid or expired passcode"⟩, db)
  | some (admin, some v) => verifyWritePhase db admin v.id now cleanupThrows

structure MFAVerificationResult where
  success : Bool
  passcode : Option (List Char)
  expiresAt : Option Nat
  message : String
deriving DecidableEq, Repr

/-- `createAdminVerification(adminId, expirationMinutes = 10)` (auth.helper.ts 52-100):
check the admin exists, draw a passcode, persist a new unused row expiring
`expirationMinutes` minutes from now, and return the plaintext passcode. -/
def createAdminVerification (db : DB) (now : Nat) (r : Nat) (adminId : Nat)
    (expirationMinutes : Nat := 10) : MFAVerificationResult × DB :=
  match getAdminById db adminId with
  | none => (⟨false, none, none, "Admin not found"⟩, db)
  | some _ =>
    let passcode := generatePasscode r
    let expiresAt := now + expirationMinutes * 60 * 1000
    let row : AdminVerification :=
      ⟨db.nextVerificationId, adminId, passcode, expiresAt, false, now⟩
    (⟨true, some passcode, some expiresAt, "MFA passcode generated successfully"⟩,
      { db with verifications := db.verifications ++ [row],
                nextVerificationId := db.nextVerificationId + 1 })

/-- `findOrCreateGuest(email, name)` (auth.helper.ts 181-226): find by unique email;
if absent create; else update the stored name when the provided name is truthy
(non-empty) and different. -/
def findOrCreateGuest (db : DB) (email name : String) :
    (Bool × Option Nat × String) × DB :=
  match db.guests.find? (fun g => g.email = email) with
  | none =>
    let g : Guest := ⟨db.nextGuestId, name, email⟩
    ((true, some g.id, "Guest created successfully"),
      { db with guests := db.guests ++ [g], nextGuestId := db.nextGuestId + 1 })
  | some g =>
    if name ≠ "" ∧ g.name ≠ name then
      ((true, some g.id, "Guest found"),
        { db with guests :=
            db.guests.map (fun x => if x.id = g.id then { x with name := name } else x) })
    else
      ((true, some g.id, "Guest found"), db)

/-- `verifyAdminHotelAccess(adminId, hotelId)` (auth.helper.ts 296-311): look the
admin up by id and compare the stored `hotelId`; `admin?.hotelId === hotelId` is
`false` when the admin is absent; any repository failure is caught and returns
`false` (`repoThrows` models the lookup rejecting). -/
def verifyAdminHotelAccess (db : DB) (repoThrows : Bool) (adminId : Nat)
    (hotelId : Int) : Bool :=
  if repoThrows then false
  else
    match getAdminById db adminId with
    | some a => (a.hotelId : Int) = hotelId
    | none => false

/-- `verifyGuestHotelAccess(guestId, hotelId)` (auth.helper.ts 317-335): `findFirst`
an order row with this guest and hotel; absent → `false`; any repository failure is
caught and returns `false`. -/
def verifyGuestHotelAccess (db : DB) (repoThrows : Bool) (guestId : Nat)
    (hotelId : Int) : Bool :=
  if repoThrows then false
  else
    (db.orders.find? (fun o => o.guestId = guestId && (o.hotelId : Int) = hotelId)).isSome

/-! ## Token Service (`jwt.helper.ts`)

The payload shapes come from auth.helper.ts lines 8-21.  The signing and
verification internals of the external `jsonwebtoken` library are not part of
this repository; they are modelled from the spec ("a signed, tamper-evident
token with an embedded expiration and a fixed issuer identity"): the claims are
serialized injectively with an escape scheme that keeps the body free of the
`'.'` separator, and the signature is a keyed tag that is injective in the
signed body — the idealization of an HMAC's tamper evidence. -/

structure AdminAuthPayload where
  adminId : Nat
  hotelId : Nat
  email : String
deriving DecidableEq, Repr

structure GuestAuthPayload where
  guestId : Nat
  email : String
deriving DecidableEq, Repr

inductive AuthPayload
  | admin : AdminAuthPayload → AuthPayload
  | guest : GuestAuthPayload → AuthPayload
deriving DecidableEq, Repr

/-- The `type` discriminant string embedded in the payload. -/
def payloadType : AuthPayload → String
  | .admin _ => "admin"
  | .guest _ => "guest"

/-- Escape one character so that the encoded stream contains no raw `'.'` or `';'`. -/
def escCh (c : Char) : List Char :=
  if c = '\\' then ['\\', 'b']
  else if c = '.' then ['\\', 'd']
  else if c = ';' then ['\\', 's']
  else [c]

/-- Escape a character list. -/
def strEnc : List Char → List Char
  | [] => []
  | c :: r => escCh c ++ strEnc r

def unescCh (c : Char) : Char :=
  if c = 'b' then '\\' else if c = 'd' then '.' else if c = 's' then ';' else c


/-- Unescape until an unescaped `';'` terminator (or the end); returns the decoded
content and the unconsumed remainder. -/
def strDec : List Char → List Char × List Char
  | [] => ([], [])
  | c :: r =>
    if c = '\\' then
      match r with
      | [] => (['\\'], [])
      | c2 :: r2 => ((unescCh c2) :: (strDec r2).1, (strDec r2).2)
    else if c = ';' then ([], c :: r)
    else (c :: (strDec r).1, (strDec r).2)

theorem strDec_esc (c : Char) (r : List Char) :
    strDec ('\\' :: c :: r) = ((unescCh c) :: (strDec r).1, (strDec r).2) := rfl

theorem strDec_semi (r : List Char) : strDec (';' :: r) = ([], ';' :: r) := by
  cases r <;> rfl

theorem strDec_plain (c : Char) (r : List Char) (hb : c ≠ '\\') (hs : c ≠ ';') :
    strDec (c :: r) = (c :: (strDec r).1, (strDec r).2) := by
  cases r with
  | nil => simp [strDec, hb, hs]
  | cons c2 r2 => simp [strDec, hb, hs]

theorem mem_escCh_ne_dot {c x : Char} (h : x ∈ escCh c) : x ≠ '.' := by
  unfold escCh at h
  by_cases h1 : c = '\\' <;> by_cases h2 : c = '.' <;> by_cases h3 : c = ';' <;>
    simp_all <;> rcases h with h | h <;> simp_all

theorem mem_escCh_ne_semi {c x : Char} (h : x ∈ escCh c) : x ≠ ';' := by
  unfold escCh at h
  by_cases h1 : c = '\\' <;> by_cases h2 : c = '.' <;> by_cases h3 : c = ';' <;>
    simp_all <;> rcases h with h | h <;> simp_all

theorem mem_strEnc_ne_dot {l : List Char} {x : Char} (h : x ∈ strEnc l) : x ≠ '.' := by
  induction l with
  | nil => simp [strEnc] at h
  | cons c r ih =>
    rw [strEnc] at h
    rcases List.mem_append.1 h with h | h
    · exact mem_escCh_ne_dot h
    · exact ih h

theorem mem_strEnc_ne_semi {l : List Char} {x : Char} (h : x ∈ strEnc l) : x ≠ ';' := by
  induction l with
  | nil => simp [strEnc] at h
  | cons c r ih =>
    rw [strEnc] at h
    rcases List.mem_append.1 h with h | h
    · exact mem_escCh_ne_semi h
    · exact ih h

theorem strDec_strEnc (l : List Char) : ∀ rest, (rest = [] ∨ rest.head? = some ';') →
    strDec (strEnc l ++ rest) = (l, rest) := by
  induction l with
  | nil =>
    intro rest hrest
    cases rest with
    | nil => rfl
    | cons c r =>
      have hc : c = ';' := by
        rcases hrest with h | h
        · exact absurd h (List.cons_ne_nil c r)
        · simpa using h
      subst hc
      exact strDec_semi r
  | cons c r ih =>
    intro rest hrest
    rw [strEnc, List.append_assoc]
    by_cases h1 : c = '\\'
    · subst h1
      rw [show escCh '\\' = ['\\', 'b'] from rfl]
      rw [show ['\\', 'b'] ++ (strEnc r ++ rest) = '\\' :: 'b' :: (strEnc r ++ rest) from rfl]
      rw [strDec_esc, ih rest hrest]
      simp [unescCh]
    · by_cases h2 : c = '.'
      · subst h2
        rw [show escCh '.' = ['\\', 'd'] from rfl]
        rw [show ['\\', 'd'] ++ (strEnc r ++ rest) = '\\' :: 'd' :: (strEnc r ++ rest) from rfl]
        rw [strDec_esc, ih rest hrest]
        simp [unescCh]
      · by_cases h3 : c = ';'
        · subst h3
          rw [show escCh ';' = ['\\', 's'] from rfl]
          rw [show ['\\', 's'] ++ (strEnc r ++ rest) = '\\' :: 's' :: (strEnc r ++ rest) from rfl]
          rw [strDec_esc, ih rest hrest]
          simp [unescCh]
        · rw [show escCh c = [c] by simp [escCh, h1, h2, h3]]
          rw [show [c] ++ (strEnc r ++ rest) = c :: (strEnc r ++ rest) from rfl]
          rw [strDec_plain c _ h1 h3, ih rest hrest]

theorem strEnc_inj {l₁ l₂ : List Char} (h : strEnc l₁ = strEnc l₂) : l₁ = l₂ := by
  have h1 := strDec_strEnc l₁ [] (Or.inl rfl)
  have h2 := strDec_strEnc l₂ [] (Or.inl rfl)
  rw [List.append_nil] at h1 h2
  rw [h, h2] at h1
  exact congrArg Prod.fst h1 |>.symm

/-- The claim set embedded in a token: the auth payload plus the registered
claims the helpers set (`issuer`, `subject`, expiry). -/
structure JwtClaims where
  payload : AuthPayload
  iss : String
  sub : String
  exp : Nat
deriving DecidableEq, Repr

/-- Injective serialization of the payload variant: a discriminant letter, then
the numeric ids and the escaped email, `';'`-separated. -/
def serializePayload : AuthPayload → List Char
  | .admin p => 'A' :: ';' :: (natToChars p.adminId ++ ';' ::
      (natToChars p.hotelId ++ ';' :: strEnc p.email.data))
  | .guest p => 'G' :: ';' :: (natToChars p.guestId ++ ';' :: strEnc p.email.data)

/-- Injective serialization of the full claim set; contains no raw `'.'`. -/
def serializeClaims (c : JwtClaims) : List Char :=
  serializePayload c.payload ++ ';' ::
    (strEnc c.iss.data ++ ';' :: (strEnc c.sub.data ++ ';' :: natToChars c.exp))

/-- Modelled from the spec: the HMAC computed by the external `jsonwebtoken`
library over the signing input (the library's code is not part of this
repository).  The spec calls the result "a signed, tamper-evident token";
accordingly the tag is keyed by the secret and injective in the signed body,
and produces no `'.'` — the idealization of an unforgeable MAC. -/
def macSign (secret body : List Char) : List Char := strEnc (secret ++ body)

theorem mem_macSign_ne_dot {secret body : List Char} {x : Char}
    (h : x ∈ macSign secret body) : x ≠ '.' := mem_strEnc_ne_dot h

theorem macSign_inj {secret b₁ b₂ : List Char} (h : macSign secret b₁ = macSign secret b₂) :
    b₁ = b₂ :=
  List.append_cancel_left (strEnc_inj h)

/-- Parse a run of decimal digits at the head of the input. -/
def parseNatSeg (l : List Char) : Option (Nat × List Char) :=
  let ds := l.takeWhile Char.isDigit
  if ds.isEmpty then none else some (digitsVal ds, l.dropWhile Char.isDigit)

def expectSemi : List Char → Option (List Char)
  | ';' :: r => some r
  | _ => none

/-- Parse a serialized claim set back; `none` on any malformed input. -/
def parseClaims (body : List Char) : Option JwtClaims :=
  match body with
  | 'A' :: ';' :: r0 =>
    match parseNatSeg r0 with
    | none => none
    | some (aid, r1) =>
      match expectSemi r1 with
      | none => none
      | some r2 =>
        match parseNatSeg r2 with
        | none => none
        | some (hid, r3) =>
          match expectSemi r3 with
          | none => none
          | some r4 =>
            let (em, r5) := strDec r4
            match expectSemi r5 with
            | none => none
            | some r6 =>
              let (is0, r7) := strDec r6
              match expectSemi r7 with
              | none => none
              | some r8 =>
                let (sb, r9) := strDec r8
                match expectSemi r9 with
                | none => none
                | some r10 =>
                  match parseNatSeg r10 with
                  | none => none
                  | some (ex, r11) =>
                    if r11 = [] then
                      some ⟨.admin ⟨aid, hid, ⟨em⟩⟩, ⟨is0⟩, ⟨sb⟩, ex⟩
                    else none
  | 'G' :: ';' :: r0 =>
    match parseNatSeg r0 with
    | none => none
    | some (gid, r1) =>
      match expectSemi r1 with
      | none => none
      | some r2 =>
        let (em, r3) := strDec r2
        match expectSemi r3 with
        | none => none
        | some r4 =>
          let (is0, r5) := strDec r4
          match expectSemi r5 with
          | none => none
          | some r6 =>
            let (sb, r7) := strDec r6
            match expectSemi r7 with
            | none => none
            | some r8 =>
              match parseNatSeg r8 with
              | none => none
              | some (ex, r9) =>
                if r9 = [] then
                  some ⟨.guest ⟨gid, ⟨em⟩⟩, ⟨is0⟩, ⟨sb⟩, ex⟩
                else none
  | _ => none

/-- Modelled from the spec: `jwt.sign(payload, secret, { expiresIn, issuer, subject })`
of the external `jsonwebtoken` library — serialize the claims, append the keyed
signature after the `'.'` separator. -/
def jwtSign (secret : List Char) (claims : JwtClaims) : List Char :=
  serializeClaims claims ++ '.' :: macSign secret (serializeClaims claims)

/-- Split a token at its first `'.'`; `none` when there is no separator. -/
def splitAtDot : List Char → Option (List Char × List Char)
  | [] => none
  | c :: r =>
    if c = '.' then some ([], r)
    else (splitAtDot r).map (fun p => (c :: p.1, p.2))

/-- Modelled from the spec: `jwt.verify(token, secret, { issuer })` of the external
`jsonwebtoken` library — check the signature over the body, then the issuer and
expiry of the embedded claims; any failure (malformed, bad signature, wrong
issuer, expired) yields no claims. -/
def jwtVerify (secret : List Char) (now : Nat) (issuer : String)
    (token : List Char) : Option JwtClaims :=
  match splitAtDot token with
  | none => none
  | some (body, sig) =>
    if sig = macSign secret body then
      match parseClaims body with
      | none => none
      | some c => if c.iss = issuer ∧ now < c.exp then some c else none
    else none

/-- `generateAdminToken(payload)` (jwt.helper.ts 11-17): sign the admin payload with
issuer `"zapmenu"`, subject `admin:<id>` and expiry `now + lifetime`. -/
def generateAdminToken (secret : List Char) (now lifetime : Nat)
    (p : AdminAuthPayload) : List Char :=
  jwtSign secret ⟨.admin p, "zapmenu", "admin:" ++ ⟨natToChars p.adminId⟩, now + lifetime⟩

/-- `generateGuestToken(payload)` (jwt.helper.ts 22-28). -/
def generateGuestToken (secret : List Char) (now lifetime : Nat)
    (p : GuestAuthPayload) : List Char :=
  jwtSign secret ⟨.guest p, "zapmenu", "guest:" ++ ⟨natToChars p.guestId⟩, now + lifetime⟩

/-- `verifyToken(token)` (jwt.helper.ts 34-50): verify with issuer `"zapmenu"`,
return the embedded payload, or `null` on any failure — every throwing branch of
`jwt.verify` is caught and becomes `null`. -/
def verifyToken (secret : List Char) (now : Nat) (token : List Char) : Option AuthPayload :=
  (jwtVerify secret now "zapmenu" token).map (fun c => c.payload)

/-- `extractTokenFromHeader(authHeader)` (jwt.helper.ts 68-78): `null` for an absent
or empty (falsy) header; strip a `"Bearer "` scheme; otherwise return the value
as-is. -/
def extractTokenFromHeader (authHeader : Option (List Char)) : Option (List Char) :=
  match authHeader with
  | none => none
  | some h =>
    if h.isEmpty then none
    else if "Bearer ".data.isPrefixOf h then some (h.drop 7)
    else some h

theorem takeWhile_append_stop (p : Char → Bool) (xs : List Char) (y : Char) (ys : List Char)
    (hxs : ∀ c ∈ xs, p c = true) (hy : p y = false) :
    (xs ++ y :: ys).takeWhile p = xs ∧ (xs ++ y :: ys).dropWhile p = y :: ys := by
  induction xs with
  | nil => simp [List.takeWhile_cons, List.dropWhile_cons, hy]
  | cons c r ih =>
    have hc : p c = true := hxs c (List.mem_cons_self c r)
    have := ih (fun x hx => hxs x (List.mem_cons_of_mem c hx))
    simp [List.takeWhile_cons, List.dropWhile_cons, hc, this.1, this.2]

theorem takeWhile_all (p : Char → Bool) (xs : List Char)
    (hxs : ∀ c ∈ xs, p c = true) :
    xs.takeWhile p = xs ∧ xs.dropWhile p = [] := by
  induction xs with
  | nil => simp
  | cons c r ih =>
    have hc : p c = true := hxs c (List.mem_cons_self c r)
    have := ih (fun x hx => hxs x (List.mem_cons_of_mem c hx))
    simp [List.takeWhile_cons, List.dropWhile_cons, hc, this.1, this.2]

theorem parseNatSeg_semi (n : Nat) (r : List Char) :
    parseNatSeg (natToChars n ++ ';' :: r) = some (n, ';' :: r) := by
  have h := takeWhile_append_stop Char.isDigit (natToChars n) ';' r
    (fun c hc => mem_natToChars_isDigit hc) (by decide)
  unfold parseNatSeg
  rw [h.1, h.2]
  simp [List.isEmpty_iff, natToChars_ne_nil n, digitsVal_natToChars]

theorem parseNatSeg_all (n : Nat) : parseNatSeg (natToChars n) = some (n, []) := by
  have h := takeWhile_all Char.isDigit (natToChars n) (fun c hc => mem_natToChars_isDigit hc)
  unfold parseNatSeg
  rw [h.1, h.2]
  simp [List.isEmpty_iff, natToChars_ne_nil n, digitsVal_natToChars]

theorem expectSemi_semi (r : List Char) : expectSemi (';' :: r) = some r := rfl

theorem strDec_strEnc_semi (l : List Char) (r : List Char) :
    strDec (strEnc l ++ ';' :: r) = (l, ';' :: r) :=
  strDec_strEnc l (';' :: r) (Or.inr rfl)

theorem parseClaims_serializeClaims (c : JwtClaims) :
    parseClaims (serializeClaims c) = some c := by
  obtain ⟨p, is0, sb, ex⟩ := c
  cases p with
  | admin a =>
    obtain ⟨aid, hid, em⟩ := a
    simp only [serializeClaims, serializePayload, List.cons_append, List.append_assoc]
    simp only [parseClaims, parseNatSeg_semi, expectSemi_semi, strDec_strEnc_semi,
      parseNatSeg_all]
    simp
  | guest g =>
    obtain ⟨gid, em⟩ := g
    simp only [serializeClaims, serializePayload, List.cons_append, List.append_assoc]
    simp only [parseClaims, parseNatSeg_semi, expectSemi_semi, strDec_strEnc_semi,
      parseNatSeg_all]
    simp

theorem serializePayload_ne_dot {p : AuthPayload} {x : Char}
    (h : x ∈ serializePayload p) : x ≠ '.' := by
  cases p with
  | admin a =>
    simp only [serializePayload, List.mem_cons, List.mem_append] at h
    rcases h with rfl | rfl | h | rfl | h | rfl | h
    · decide
    · decide
    · exact mem_natToChars_ne_dot h
    · decide
    · exact mem_natToChars_ne_dot h
    · decide
    · exact mem_strEnc_ne_dot h
  | guest g =>
    simp only [serializePayload, List.mem_cons, List.mem_append] at h
    rcases h with rfl | rfl | h | rfl | h
    · decide
    · decide
    · exact mem_natToChars_ne_dot h
    · decide
    · exact mem_strEnc_ne_dot h

theorem serializeClaims_ne_dot {c : JwtClaims} {x : Char}
    (h : x ∈ serializeClaims c) : x ≠ '.' := by
  simp only [serializeClaims, List.mem_append, List.mem_cons] at h
  rcases h with h | rfl | h | rfl | h | rfl | h
  · exact serializePayload_ne_dot h
  · decide
  · exact mem_strEnc_ne_dot h
  · decide
  · exact mem_strEnc_ne_dot h
  · decide
  · exact mem_natToChars_ne_dot h

theorem splitAtDot_append (body sig : List Char) (h : ∀ c ∈ body, c ≠ '.') :
    splitAtDot (body ++ '.' :: sig) = some (body, sig) := by
  induction body with
  | nil => simp [splitAtDot]
  | cons c r ih =>
    have hc : c ≠ '.' := h c (List.mem_cons_self c r)
    rw [List.cons_append, splitAtDot, if_neg hc,
      ih (fun x hx => h x (List.mem_cons_of_mem c hx))]
    rfl

theorem splitAtDot_dotfree (t : List Char) (h : ∀ c ∈ t, c ≠ '.') :
    splitAtDot t = none := by
  induction t with
  | nil => rfl
  | cons c r ih =>
    rw [splitAtDot, if_neg (h c (List.mem_cons_self c r)),
      ih (fun x hx => h x (List.mem_cons_of_mem c hx))]
    rfl

/-- Evaluating the verifier on a decomposed token whose body is dot-free. -/
theorem jwtVerify_body_sig (secret : List Char) (now : Nat) (issuer : String)
    (body sig : List Char) (h : ∀ x ∈ body, x ≠ '.') :
    jwtVerify secret now issuer (body ++ '.' :: sig) =
      if sig = macSign secret body then
        (match parseClaims body with
         | none => none
         | some c => if c.iss = issuer ∧ now < c.exp then some c else none)
      else none := by
  unfold jwtVerify
  rw [splitAtDot_append _ _ h]

/-- A token whose signature segment is not the keyed tag of its body never verifies. -/
theorem jwtVerify_sig_ne (secret : List Char) (now : Nat) (issuer : String)
    (body sig : List Char) (hfree : ∀ x ∈ body, x ≠ '.')
    (hne : sig ≠ macSign secret body) :
    jwtVerify secret now issuer (body ++ '.' :: sig) = none := by
  rw [jwtVerify_body_sig _ _ _ _ _ hfree, if_neg hne]

/-- Verifying a token signed with the same secret: succeeds exactly when the
issuer matches and the expiry is in the future, and then returns the signed
claims unchanged. -/
theorem jwtVerify_jwtSign (secret : List Char) (now : Nat) (issuer : String)
    (c : JwtClaims) :
    jwtVerify secret now issuer (jwtSign secret c) =
      if c.iss = issuer ∧ now < c.exp then some c else none := by
  unfold jwtSign
  rw [jwtVerify_body_sig _ _ _ _ _ (fun x hx => serializeClaims_ne_dot hx)]
  rw [if_pos rfl, parseClaims_serializeClaims]

/-- Changing any single character of a signed token makes verification fail. -/
theorem jwtVerify_set_ne (secret : List Char) (now : Nat) (issuer : String)
    (c : JwtClaims) (i : Nat) (ch : Char) (hi : i < (jwtSign secret c).length)
    (hne : (jwtSign secret c).get ⟨i, hi⟩ ≠ ch) :
    jwtVerify secret now issuer ((jwtSign secret c).set i ch) = none := by
  set body := serializeClaims c with hbody
  set sig := macSign secret body with hsigdef
  have hbodyfree : ∀ x ∈ body, x ≠ '.' := fun x hx => serializeClaims_ne_dot hx
  have hsigfree : ∀ x ∈ sig, x ≠ '.' := fun x hx => mem_macSign_ne_dot hx
  have hi2 : i < (body ++ '.' :: sig).length := hi
  have hlen : (body ++ '.' :: sig).length = body.length + 1 + sig.length := by
    rw [List.length_append, List.length_cons]
    omega
  have hne2 : (body ++ '.' :: sig)[i]? ≠ some ch := by
    rw [List.getElem?_eq_getElem hi2]
    intro h
    exact hne (Option.some.inj h)
  show jwtVerify secret now issuer ((body ++ '.' :: sig).set i ch) = none
  rcases Nat.lt_trichotomy i body.length with hlt | heqi | hgt
  · -- the change lands in the serialized body
    rw [List.set_append_left _ _ hlt]
    by_cases hch : ch = '.'
    · -- an extra separator appears: the signature segment then carries a raw '.'
      subst hch
      rw [List.set_eq_take_cons_drop _ hlt, List.append_assoc, List.cons_append]
      exact jwtVerify_sig_ne _ _ _ _ _
        (fun x hx => hbodyfree x (List.take_subset i body hx))
        (by
          intro habs
          have hdotmem : '.' ∈ List.drop (i + 1) body ++ '.' :: sig := by simp
          rw [habs] at hdotmem
          exact mem_strEnc_ne_dot hdotmem rfl)
    · -- the body changes but the signature does not: the keyed tag no longer matches
      have hfree : ∀ x ∈ body.set i ch, x ≠ '.' := by
        intro x hx
        rcases List.mem_or_eq_of_mem_set hx with hx | rfl
        · exact hbodyfree x hx
        · exact hch
      apply jwtVerify_sig_ne _ _ _ _ _ hfree
      intro habs
      have hb : body = body.set i ch := macSign_inj (hsigdef.symm.trans habs)
      have hset : (body.set i ch)[i]? = some ch := List.getElem?_set_self hlt
      rw [← hb] at hset
      apply hne2
      rw [List.getElem?_append, if_pos hlt]
      exact hset
  · -- the separator itself is overwritten: no '.' remains in the token
    have hch : ch ≠ '.' := by
      intro h
      subst h
      apply hne2
      rw [List.getElem?_append_right (Nat.le_of_eq heqi.symm), heqi, Nat.sub_self,
        List.getElem?_cons_zero]
    rw [List.set_append_right _ _ (Nat.le_of_eq heqi.symm), heqi, Nat.sub_self]
    rw [show ('.' :: sig).set 0 ch = ch :: sig from rfl]
    unfold jwtVerify
    rw [splitAtDot_dotfree _ (by
      intro x hx
      rcases List.mem_append.1 hx with hx | hx
      · exact hbodyfree x hx
      · rcases List.mem_cons.1 hx with rfl | hx
        · exact hch
        · exact hsigfree x hx)]
  · -- the change lands in the signature segment: the recomputed tag differs
    have hle : body.length ≤ i := Nat.le_of_lt hgt
    rw [List.set_append_right _ _ hle]
    obtain ⟨j, hj⟩ : ∃ j, i - body.length = j + 1 := ⟨i - body.length - 1, by omega⟩
    rw [hj, show ('.' :: sig).set (j + 1) ch = '.' :: sig.set j ch from rfl]
    have hi3 : i < body.length + 1 + sig.length := hlen ▸ hi2
    have hjlt : j < sig.length := by omega
    apply jwtVerify_sig_ne _ _ _ _ _ hbodyfree
    intro habs
    have hs : sig.set j ch = sig := habs.trans hsigdef.symm
    have hset : (sig.set j ch)[j]? = some ch := List.getElem?_set_self hjlt
    rw [hs] at hset
    apply hne2
    rw [List.getElem?_append_right hle, hj, List.getElem?_cons_succ]
    exact hset

/-! ## Access Guard (auth.middleware.ts)

`authenticateAdmin` / `authenticateGuest` model the middleware as a function from
the incoming `Authorization` header and store state to a terminal outcome:
either a rejection with an HTTP status, or `next` with the principal fields the
middleware attaches to the request. -/

/-- The fields attached as `req.admin`: spread of the token payload plus the
freshly resolved `id`, `name`, `phone`. -/
structure ReqAdmin where
  adminId : Nat
  hotelId : Nat
  email : String
  id : Nat
  name : String
  phone : String
deriving DecidableEq, Repr

/-- The fields attached as `req.guest`. -/
structure ReqGuest where
  guestId : Nat
  email : String
  id : Nat
  name : String
deriving DecidableEq, Repr

inductive AuthAdminResult
  | reject (status : Nat) (error : String)
  | next (admin : ReqAdmin) (reqHotelId : Nat)
deriving DecidableEq, Repr

inductive AuthGuestResult
  | reject (status : Nat) (error : String)
  | next (guest : ReqGuest)
deriving DecidableEq, Repr

/-- `authenticateAdmin` (auth.middleware 552-596): extract the token, verify it,
require the admin discriminant, re-resolve the admin by id (freshness check),
then attach `req.admin` and `req.hotelId`. -/
def authenticateAdmin (db : DB) (secret : List Char) (now : Nat)
    (authHeader : Option (List Char)) : AuthAdminResult :=
  match extractTokenFromHeader authHeader with
  | none => .reject 401 "Authentication required"
  | some token =>
    match verifyToken secret now token with
    | some (.admin p) =>
      match getAdminById db p.adminId with
      | none => .reject 401 "Admin not found"
      | some a => .next ⟨p.adminId, p.hotelId, p.email, a.id, a.name, a.phone⟩ p.hotelId
    | _ => .reject 401 "Invalid token or not an admin token"

/-- `authenticateGuest` (auth.middleware 603-645). -/
def authenticateGuest (db : DB) (secret : List Char) (now : Nat)
    (authHeader : Option (List Char)) : AuthGuestResult :=
  match extractTokenFromHeader authHeader with
  | none => .reject 401 "Authentication required"
  | some token =>
    match verifyToken secret now token with
    | some (.guest p) =>
      match getGuestById db p.guestId with
      | none => .reject 401 "Guest not found"
      | some g => .next ⟨p.guestId, p.email, g.id, g.name⟩
    | _ => .reject 401 "Invalid token or not a guest token"

/-! ## Hotel-scoping middleware (auth.middleware 750-832)

JavaScript value semantics needed by the hotel-id resolution:
`parseInt(s, 10)` (whitespace skip, optional sign, leading digit run, `NaN` when
no digits), string truthiness (empty string is falsy), number truthiness
(`0` and `NaN` are falsy). -/

inductive JsNum
  | nan
  | num (n : Int)
deriving DecidableEq, Repr

/-- `parseInt(s, 10)`. -/
def parseIntJS (s : List Char) : JsNum :=
  let t := s.dropWhile (fun c => c = ' ')
  match t with
  | '-' :: r =>
    let ds := r.takeWhile Char.isDigit
    if ds.isEmpty then .nan else .num (-(digitsVal ds : Int))
  | '+' :: r =>
    let ds := r.takeWhile Char.isDigit
    if ds.isEmpty then .nan else .num (digitsVal ds)
  | r =>
    let ds := r.takeWhile Char.isDigit
    if ds.isEmpty then .nan else .num (digitsVal ds)

/-- Truthiness of an optional string field (`undefined` and `""` are falsy). -/
def truthyStr : Option (List Char) → Bool
  | some s => !s.isEmpty
  | none => false

/-- The `params → body → query` conditional chain resolving the raw hotel id
(auth.middleware 762-768 / 806-812): the first truthy source is parsed; `null`
when none is truthy. -/
def resolveHotelId (params body query : Option (List Char)) : Option JsNum :=
  if truthyStr params then some (parseIntJS (params.getD []))
  else if truthyStr body then some (parseIntJS (body.getD []))
  else if truthyStr query then some (parseIntJS (query.getD []))
  else none

inductive HotelAuthzResult
  | reject (status : Nat) (error : String)
  | next (reqHotelId : Int)
deriving DecidableEq, Repr

/-- `hotelId || fallback`: JavaScript falls back on `null`, `NaN` and `0`. -/
def jsOrFallback (v : Option JsNum) (fallback : Int) : Int :=
  match v with
  | some (.num n) => if n = 0 then fallback else n
  | _ => fallback

/-- `!hotelId`: truthiness test used by the guest branch (`null`, `NaN`, `0` → falsy). -/
def jsFalsy (v : Option JsNum) : Bool :=
  match v with
  | some (.num n) => n = 0
  | _ => true

/-- `authorizeAdminHotel` (auth.middleware 750-787): requires `req.admin`; resolves
the target hotel id from params, body, query, falling back to the admin's own
`hotelId` when none is given (or the given one is falsy); checks
`verifyAdminHotelAccess`; `403` on denial, else `next` with `req.hotelId` set. -/
def authorizeAdminHotel (db : DB) (repoThrows : Bool) (admin : Option ReqAdmin)
    (params body query : Option (List Char)) : HotelAuthzResult :=
  match admin with
  | none => .reject 401 "Authentication required"
  | some a =>
    let hid := resolveHotelId params body query
    let target : Int := jsOrFallback hid (a.hotelId : Int)
    if verifyAdminHotelAccess db repoThrows a.adminId target then .next target
    else .reject 403 "Access denied to this hotel"

/-- `authorizeGuestHotel` (auth.middleware 794-832): requires `req.guest`; resolves
the target hotel id from params, body, query with no fallback — a falsy resolved
value (absent, `NaN` or `0`) is a `400`; checks `verifyGuestHotelAccess`; `403` on
denial, else `next`. -/
def authorizeGuestHotel (db : DB) (repoThrows : Bool) (guest : Option ReqGuest)
    (params body query : Option (List Char)) : HotelAuthzResult :=
  match guest with
  | none => .reject 401 "Authentication required"
  | some g =>
    let hid := resolveHotelId params body query
    if jsFalsy hid then .reject 400 "Hotel ID required"
    else
      match hid with
      | some (.num n) =>
        if verifyGuestHotelAccess db repoThrows g.guestId n then .next n
        else .reject 403 "Access denied to this hotel"
      | _ => .reject 400 "Hotel ID required"

/-! ## Concrete sample data used by the witnesses -/

def admW : Admin := ⟨1, "Ann", "a@hotel.com", "555", 7⟩

def verW : AdminVerification := ⟨11, 1, "123456".data, 10000, false, 2⟩

def dbW : DB := ⟨[admW], [], [verW], [⟨21, 2, 7⟩], 100, 2⟩

def dbEmpty : DB := ⟨[], [], [], [], 1, 1⟩

def kSecret : List Char := "k1".data

def pA : AdminAuthPayload := ⟨1, 7, "a@hotel.com"⟩

def pG : GuestAuthPayload := ⟨2, "g@x.com"⟩

def claimsExpired : JwtClaims := ⟨.admin pA, "zapmenu", "admin:1", 100⟩

def aReqW : ReqAdmin := ⟨1, 7, "a@hotel.com", 1, "Ann", "555"⟩

def gReqW : ReqGuest := ⟨2, "g@x.com", 2, "Glen"⟩

/-! ## Helper lemmas for the MFA store proofs -/

theorem foldl_pickLatest_all_eq (v : AdminVerification) :
    ∀ (l : List AdminVerification), (∀ x ∈ l, x = v) →
    l.foldl (fun acc w => match acc with
      | none => some w
      | some b => if b.createdAt < w.createdAt then some w else acc) (some v) = some v := by
  intro l
  induction l with
  | nil => intro _; rfl
  | cons x t ih =>
    intro h
    have hx : x = v := h x (List.mem_cons_self x t)
    subst hx
    rw [List.foldl_cons]
    simp only [ite_self]
    exact ih (fun y hy => h y (List.mem_cons_of_mem x hy))

theorem findLatestVerification_unique (db : DB) (adminId : Nat) (pc : List Char)
    (now : Nat) (v : AdminVerification) (hv : v ∈ db.verifications)
    (hmatch : verificationMatches adminId pc now v = true)
    (huniq : ∀ w ∈ db.verifications, verificationMatches adminId pc now w = true → w = v) :
    findLatestVerification db adminId pc now = some v := by
  unfold findLatestVerification
  have hfmem : v ∈ db.verifications.filter (verificationMatches adminId pc now) :=
    List.mem_filter.2 ⟨hv, hmatch⟩
  have hall : ∀ x ∈ db.verifications.filter (verificationMatches adminId pc now), x = v := by
    intro x hx
    have h := List.mem_filter.1 hx
    exact huniq x h.1 h.2
  cases hfil : db.verifications.filter (verificationMatches adminId pc now) with
  | nil => rw [hfil] at hfmem; cases hfmem
  | cons x t =>
    rw [hfil] at hall
    have hx : x = v := hall x (List.mem_cons_self x t)
    subst hx
    rw [List.foldl_cons]
    exact foldl_pickLatest_all_eq x t (fun y hy => hall y (List.mem_cons_of_mem x hy))

theorem findLatestVerification_none (db : DB) (adminId : Nat) (pc : List Char) (now : Nat)
    (hnone : ∀ w ∈ db.verifications, verificationMatches adminId pc now w = false) :
    findLatestVerification db adminId pc now = none := by
  unfold findLatestVerification
  have : db.verifications.filter (verificationMatches adminId pc now) = [] := by
    rw [List.filter_eq_nil_iff]
    intro a ha
    rw [hnone a ha]
    decide
  rw [this]
  rfl

/-- C1: for an admin with a single valid (unused, unexpired) verification record
holding a given passcode, `verifyPasscode(email, passcode)` succeeds exactly once:
the first call returns success with the admin's adminId and hotelId and marks the
record used, and a second call with the same email and passcode at any later (or
equal) time fails with `Invalid or expired passcode`. -/
theorem C1_verifyPasscode_single_use
    (db : DB) (now₁ now₂ : Nat) (email : String) (passcode : List Char)
    (admin : Admin) (v : AdminVerification)
    (hadmin : findAdminByEmail db email = some admin)
    (hv : v ∈ db.verifications)
    (hmatch : verificationMatches admin.id passcode now₁ v = true)
    (huniq : ∀ w ∈ db.verifications,
      verificationMatches admin.id passcode now₁ w = true → w = v)
    (hnow : now₁ ≤ now₂) :
    (verifyAdminPasscode db now₁ false email passcode).1 =
      ⟨true, some admin.id, some admin.hotelId, "Passcode verified successfully"⟩ ∧
    ({ v with used := true } : AdminVerification) ∈
      (verifyAdminPasscode db now₁ false email passcode).2.verifications ∧
    (verifyAdminPasscode (verifyAdminPasscode db now₁ false email passcode).2 now₂ false
        email passcode).1 =
      ⟨false, none, none, "Invalid or expired passcode"⟩ := by
  have hfind : findLatestVerification db admin.id passcode now₁ = some v :=
    findLatestVerification_unique db admin.id passcode now₁ v hv hmatch huniq
  have hm : v.adminId = admin.id ∧ v.passcode = passcode ∧ v.used = false ∧
      now₁ < v.expiresAt := by
    unfold verificationMatches at hmatch
    simp [and_assoc] at hmatch
    exact hmatch
  set db₂ := cleanupOldVerifications (markVerificationUsed db v.id) admin.id now₁ with hdb₂
  have hphase : verifyFindPhase db now₁ email passcode = some (admin, some v) := by
    unfold verifyFindPhase
    rw [hadmin]
    show some (admin, findLatestVerification db admin.id passcode now₁) = _
    rw [hfind]
  have hrun : verifyAdminPasscode db now₁ false email passcode =
      (⟨true, some admin.id, some admin.hotelId, "Passcode verified successfully"⟩, db₂) := by
    unfold verifyAdminPasscode
    rw [hphase]
    rfl
  refine ⟨by rw [hrun], ?_, ?_⟩
  · rw [hrun]
    show ({ v with used := true } : AdminVerification) ∈ db₂.verifications
    rw [hdb₂]
    unfold cleanupOldVerifications markVerificationUsed
    apply List.mem_filter.2
    refine ⟨?_, ?_⟩
    · have him : ({ v with used := true } : AdminVerification) =
          (fun w => if w.id = v.id then { w with used := true } else w) v := by simp
      rw [him]
      exact List.mem_map_of_mem _ hv
    · have hlt : ¬ (v.expiresAt < now₁ - 24 * 60 * 60 * 1000) := by omega
      simp [hlt]
  · rw [hrun]
    show (verifyAdminPasscode db₂ now₂ false email passcode).1 = _
    have hadmin2 : findAdminByEmail db₂ email = some admin := hadmin
    have hnone : findLatestVerification db₂ admin.id passcode now₂ = none := by
      apply findLatestVerification_none
      intro w hw
      rw [hdb₂] at hw
      have hw2 := (List.mem_filter.1 hw).1
      obtain ⟨u, hu, rfl⟩ := List.mem_map.1 hw2
      by_cases hid : u.id = v.id
      · simp only [hid, if_pos rfl]
        unfold verificationMatches
        simp
      · simp only [if_neg hid]
        by_contra hb
        rw [Bool.not_eq_false] at hb
        unfold verificationMatches at hb
        simp [and_assoc] at hb
        have hu1 : verificationMatches admin.id passcode now₁ u = true := by
          unfold verificationMatches
          simp [and_assoc]
          exact ⟨hb.1, hb.2.1, hb.2.2.1, by omega⟩
        exact hid (by rw [huniq u hu hu1])
    have hphase2 : verifyFindPhase db₂ now₂ email passcode = some (admin, none) := by
      unfold verifyFindPhase
      rw [hadmin2]
      show some (admin, findLatestVerification db₂ admin.id passcode now₂) = _
      rw [hnone]
    unfold verifyAdminPasscode
    rw [hphase2]

/-- Closed instance of C1 at a concrete store: one admin, one valid record. -/
theorem C1_verifyPasscode_single_use_witness :
    (verifyAdminPasscode dbW 5 false "a@hotel.com" "123456".data).1 =
      ⟨true, some admW.id, some admW.hotelId, "Passcode verified successfully"⟩ ∧
    ({ verW with used := true } : AdminVerification) ∈
      (verifyAdminPasscode dbW 5 false "a@hotel.com" "123456".data).2.verifications ∧
    (verifyAdminPasscode (verifyAdminPasscode dbW 5 false "a@hotel.com" "123456".data).2
        6 false "a@hotel.com" "123456".data).1 =
      ⟨false, none, none, "Invalid or expired passcode"⟩ :=
  C1_verifyPasscode_single_use dbW 5 6 "a@hotel.com" "123456".data admW verW
    (by decide) (by decide) (by decide) (by decide) (by decide)

/-- C2 counterexample: the claim says every value of [100000, 999999] is a possible
passcode value, but `crypto.randomInt(100000, 999999)` has an exclusive upper
bound, so the value 999999 is never drawn for any entropy of the random source. -/
theorem C2_counterexample_999999_unreachable :
    ¬ ∃ r : Nat, generatePasscodeVal r = 999999 := by
  rintro ⟨r, hr⟩
  have := generatePasscodeVal_ub r
  omega

/-- C2 (amended): every `generatePasscode` result is a 6-digit numeric string
(matching `^[0-9]{6}$`) whose integer value lies in the inclusive range
[100000, 999998], every value of that range is attainable (the draw is uniform
over [100000, 999999), exclusive upper bound), and `createVerification` for an
existing admin returns exactly that passcode string. -/
theorem C2_generatePasscode_range :
    (∀ r : Nat, isSixDigitString (generatePasscode r) ∧
      100000 ≤ generatePasscodeVal r ∧ generatePasscodeVal r ≤ 999998) ∧
    (∀ v : Nat, 100000 ≤ v → v ≤ 999998 → ∃ r, generatePasscodeVal r = v) ∧
    (∀ (db : DB) (now r adminId expMin : Nat), (getAdminById db adminId).isSome = true →
      (createAdminVerification db now r adminId expMin).1.passcode =
        some (generatePasscode r)) := by
  refine ⟨?_, ?_, ?_⟩
  · intro r
    have hlb := generatePasscodeVal_lb r
    have hub := generatePasscodeVal_ub r
    refine ⟨⟨?_, ?_⟩, hlb, hub⟩
    · show (natToChars (generatePasscodeVal r)).length = 6
      exact natToChars_len_pow 5 (generatePasscodeVal r) (by norm_num [hlb]) (by
        have : generatePasscodeVal r < 1000000 := by omega
        norm_num
        omega)
    · intro c hc
      exact mem_natToChars_isDigit hc
  · intro v h1 h2
    refine ⟨v - 100000, ?_⟩
    unfold generatePasscodeVal randomInt
    have : (v - 100000) % (999999 - 100000) = v - 100000 := Nat.mod_eq_of_lt (by omega)
    omega
  · intro db now r adminId expMin hsome
    unfold createAdminVerification
    obtain ⟨a, ha⟩ := Option.isSome_iff_exists.1 hsome
    rw [ha]

/-- Closed instance of C2 (amended): the constant draw and the boundary value. -/
theorem C2_generatePasscode_range_witness :
    isSixDigitString (generatePasscode 0) ∧
    (∃ r, generatePasscodeVal r = 999998) ∧
    (createAdminVerification dbW 5 7 1 10).1.passcode = some (generatePasscode 7) :=
  ⟨(C2_generatePasscode_range.1 0).1,
   C2_generatePasscode_range.2.1 999998 (by norm_num) (by norm_num),
   C2_generatePasscode_range.2.2 dbW 5 7 1 10 (by decide)⟩

/-- C3: contrary to the claim, a failure of the opportunistic `deleteMany` of old
used records DOES fail the overall verification: the `deleteMany` is awaited
inside the same `try` block, so its rejection lands in the `catch`, which
returns success=false ("Failed to verify passcode") — after the matched record
has already been marked used, locking that passcode out.  At the concrete
failing input (a store with one valid record, cleanup failing) the result is the
generic failure and the record is left used. -/
theorem C3_cleanup_failure_fails_verification :
    (verifyAdminPasscode dbW 5 true "a@hotel.com" "123456".data).1 =
      ⟨false, none, none, "Failed to verify passcode"⟩ ∧
    ({ verW with used := true } : AdminVerification) ∈
      (verifyAdminPasscode dbW 5 true "a@hotel.com" "123456".data).2.verifications := by
  decide

/-- C9: contrary to the claim, the mark-used transition is NOT a conditional
update — `update({ where: { id }, data: { used: true } })` is keyed by `id`
alone, with no `used: false` guard.  In the interleaving find₁, find₂, mark₁,
mark₂ of two concurrent verification attempts with the same valid passcode, both
read phases observe the unused record and both write phases report success.  A
sequential second call (whose read phase runs after the first write) does fail,
which shows the defect is precisely the unguarded window between find and
update. -/
theorem C9_concurrent_verification_both_succeed :
    (verifyFindPhase dbW 5 "a@hotel.com" "123456".data = some (admW, some verW)) ∧
    ((verifyWritePhase dbW admW verW.id 5 false).1.success = true ∧
      (verifyWritePhase (verifyWritePhase dbW admW verW.id 5 false).2
        admW verW.id 5 false).1.success = true) ∧
    (verifyAdminPasscode (verifyAdminPasscode dbW 5 false "a@hotel.com" "123456".data).2
        5 false "a@hotel.com" "123456".data).1.success = false := by
  decide

/-- C4: when the token passes Token Service verification with the admin (resp.
guest) discriminant but the Identity Repository holds no principal with the
embedded id, the Access Guard rejects with 401 ("Admin not found" / "Guest not
found") and terminates in the rejection state, which carries no principal. -/
theorem C4_deleted_principal_rejected
    (db : DB) (secret : List Char) (now : Nat) (header : Option (List Char))
    (tok : List Char) (p : AdminAuthPayload) (g : GuestAuthPayload)
    (hex : extractTokenFromHeader header = some tok) :
    (verifyToken secret now tok = some (.admin p) → getAdminById db p.adminId = none →
      authenticateAdmin db secret now header = .reject 401 "Admin not found") ∧
    (verifyToken secret now tok = some (.guest g) → getGuestById db g.guestId = none →
      authenticateGuest db secret now header = .reject 401 "Guest not found") := by
  constructor
  · intro hv hab
    unfold authenticateAdmin
    rw [hex]
    simp only [hv, hab]
  · intro hv hab
    unfold authenticateGuest
    rw [hex]
    simp only [hv, hab]

/-- Closed instance of C4: freshly minted valid tokens for principals absent from
an empty store are rejected with 401 by both guards. -/
theorem C4_deleted_principal_rejected_witness :
    authenticateAdmin dbEmpty kSecret 0 (some (generateAdminToken kSecret 0 100 pA)) =
      .reject 401 "Admin not found" ∧
    authenticateGuest dbEmpty kSecret 0 (some (generateGuestToken kSecret 0 100 pG)) =
      .reject 401 "Guest not found" :=
  ⟨(C4_deleted_principal_rejected dbEmpty kSecret 0
      (some (generateAdminToken kSecret 0 100 pA)) (generateAdminToken kSecret 0 100 pA)
      pA pG (by decide)).1 (by decide) (by decide),
   (C4_deleted_principal_rejected dbEmpty kSecret 0
      (some (generateGuestToken kSecret 0 100 pG)) (generateGuestToken kSecret 0 100 pG)
      pA pG (by decide)).2 (by decide) (by decide)⟩

theorem jwtVerify_some_inv {secret : List Char} {now : Nat} {issuer : String}
    {token : List Char} {c : JwtClaims}
    (h : jwtVerify secret now issuer token = some c) :
    c.iss = issuer ∧ now < c.exp := by
  unfold jwtVerify at h
  split at h
  · cases h
  · split at h
    · split at h
      · cases h
      · split at h
        · rename_i hcond
          cases h
          exact hcond
        · cases h
    · cases h

/-- C5: verifying the token minted from an AdminAuthPayload (before its expiry,
with the same signing key) yields exactly the admin payload — type "admin" and
all fields equal — and changing any one character of the minted token makes
verification return null. -/
theorem C5_token_roundtrip_tamper
    (secret : List Char) (now₀ lifetime now : Nat) (p : AdminAuthPayload)
    (hvalid : now < now₀ + lifetime) :
    (verifyToken secret now (generateAdminToken secret now₀ lifetime p) =
        some (.admin p) ∧ payloadType (.admin p) = "admin") ∧
    (∀ (i : Nat) (hi : i < (generateAdminToken secret now₀ lifetime p).length)
        (ch : Char),
      (generateAdminToken secret now₀ lifetime p).get ⟨i, hi⟩ ≠ ch →
      verifyToken secret now ((generateAdminToken secret now₀ lifetime p).set i ch) =
        none) := by
  constructor
  · constructor
    · unfold verifyToken generateAdminToken
      rw [jwtVerify_jwtSign, if_pos ⟨rfl, hvalid⟩]
      rfl
    · rfl
  · intro i hi ch hne
    unfold verifyToken generateAdminToken
    rw [jwtVerify_set_ne secret now "zapmenu" _ i ch hi hne]
    rfl

/-- Closed instance of C5: round trip at a concrete payload, and tampering with
the first character of the concrete token. -/
theorem C5_token_roundtrip_tamper_witness :
    verifyToken kSecret 50 (generateAdminToken kSecret 0 100 pA) = some (.admin pA) ∧
    verifyToken kSecret 50 ((generateAdminToken kSecret 0 100 pA).set 0 'X') = none :=
  ⟨((C5_token_roundtrip_tamper kSecret 0 100 50 pA (by norm_num)).1).1,
   (C5_token_roundtrip_tamper kSecret 0 100 50 pA (by norm_num)).2 0 (by decide) 'X'
     (by decide)⟩

/-- C6: `verify(token)` is total as a nullable result: for every input it either
returns the embedded payload (exactly when the signature, issuer and expiry
checks pass) or null; expired tokens, wrong-issuer tokens, tokens whose
signature segment is not the correct tag of the body, and malformed tokens
(no separator) all yield null, never an exception. -/
theorem C6_verifyToken_total_nullable (secret : List Char) (now : Nat) :
    (∀ token : List Char, verifyToken secret now token = none ∨
      ∃ c : JwtClaims, jwtVerify secret now "zapmenu" token = some c ∧
        verifyToken secret now token = some c.payload ∧
        c.iss = "zapmenu" ∧ now < c.exp) ∧
    (∀ c : JwtClaims, c.exp ≤ now → verifyToken secret now (jwtSign secret c) = none) ∧
    (∀ c : JwtClaims, c.iss ≠ "zapmenu" →
      verifyToken secret now (jwtSign secret c) = none) ∧
    (∀ body sig : List Char, (∀ x ∈ body, x ≠ '.') → sig ≠ macSign secret body →
      verifyToken secret now (body ++ '.' :: sig) = none) ∧
    (∀ token : List Char, (∀ x ∈ token, x ≠ '.') →
      verifyToken secret now token = none) := by
  refine ⟨?_, ?_, ?_, ?_, ?_⟩
  · intro token
    cases hres : jwtVerify secret now "zapmenu" token with
    | none =>
      left
      unfold verifyToken
      rw [hres]
      rfl
    | some c =>
      right
      have hinv := jwtVerify_some_inv hres
      exact ⟨c, rfl, by unfold verifyToken; rw [hres]; rfl, hinv.1, hinv.2⟩
  · intro c hexp
    unfold verifyToken
    rw [jwtVerify_jwtSign, if_neg (fun hc => absurd hc.2 (by omega))]
    rfl
  · intro c hiss
    unfold verifyToken
    rw [jwtVerify_jwtSign, if_neg (fun hc => hiss hc.1)]
    rfl
  · intro body sig hfree hne
    unfold verifyToken
    rw [jwtVerify_sig_ne secret now "zapmenu" body sig hfree hne]
    rfl
  · intro token hfree
    unfold verifyToken jwtVerify
    rw [splitAtDot_dotfree token hfree]
    rfl

/-- Closed instance of C6: an expired signed token and a malformed token both
verify to null. -/
theorem C6_verifyToken_total_nullable_witness :
    verifyToken kSecret 100 (jwtSign kSecret claimsExpired) = none ∧
    verifyToken kSecret 0 "abc".data = none :=
  ⟨(C6_verifyToken_total_nullable kSecret 100).2.1 claimsExpired (by decide),
   (C6_verifyToken_total_nullable kSecret 0).2.2.2.2 "abc".data (by decide)⟩

/-- C7: the target hotel id is resolved from route params, then body, then query,
in that priority order; an admin with no hotel id given falls back to their own
hotelId from the token; a guest with no usable hotel id (absent, non-numeric —
which parses to NaN — or 0, all falsy) fails with 400; and when the access
predicate denies, the request is rejected with 403 (both kinds). -/
theorem C7_hotel_scoping (db : DB) (rt : Bool) (a : ReqAdmin) (g : ReqGuest)
    (params body query : Option (List Char)) :
    (truthyStr params = true →
      resolveHotelId params body query = some (parseIntJS (params.getD []))) ∧
    (truthyStr params = false → truthyStr body = true →
      resolveHotelId params body query = some (parseIntJS (body.getD []))) ∧
    (truthyStr params = false → truthyStr body = false → truthyStr query = true →
      resolveHotelId params body query = some (parseIntJS (query.getD []))) ∧
    (truthyStr params = false → truthyStr body = false → truthyStr query = false →
      resolveHotelId params body query = none) ∧
    (resolveHotelId params body query = none →
      authorizeAdminHotel db rt (some a) params body query =
        (if verifyAdminHotelAccess db rt a.adminId (a.hotelId : Int) then
          .next (a.hotelId : Int)
        else .reject 403 "Access denied to this hotel")) ∧
    (jsFalsy (resolveHotelId params body query) = true →
      authorizeGuestHotel db rt (some g) params body query =
        .reject 400 "Hotel ID required") ∧
    (∀ n : Int, resolveHotelId params body query = some (.num n) → n ≠ 0 →
      verifyAdminHotelAccess db rt a.adminId n = false →
      authorizeAdminHotel db rt (some a) params body query =
        .reject 403 "Access denied to this hotel") ∧
    (∀ n : Int, resolveHotelId params body query = some (.num n) → n ≠ 0 →
      verifyGuestHotelAccess db rt g.guestId n = false →
      authorizeGuestHotel db rt (some g) params body query =
        .reject 403 "Access denied to this hotel") := by
  refine ⟨?_, ?_, ?_, ?_, ?_, ?_, ?_, ?_⟩
  · intro h1
    unfold resolveHotelId
    rw [if_pos h1]
  · intro h1 h2
    unfold resolveHotelId
    rw [if_neg (by simp [h1]), if_pos h2]
  · intro h1 h2 h3
    unfold resolveHotelId
    rw [if_neg (by simp [h1]), if_neg (by simp [h2]), if_pos h3]
  · intro h1 h2 h3
    unfold resolveHotelId
    rw [if_neg (by simp [h1]), if_neg (by simp [h2]), if_neg (by simp [h3])]
  · intro hres
    unfold authorizeAdminHotel
    simp only [hres]
    rfl
  · intro hf
    unfold authorizeGuestHotel
    simp only [hf]
    rfl
  · intro n hres hn hacc
    unfold authorizeAdminHotel
    simp only [hres]
    have htgt : jsOrFallback (some (.num n)) (a.hotelId : Int) = n := by
      simp [jsOrFallback, hn]
    simp only [htgt, hacc]
    rfl
  · intro n hres hn hacc
    unfold authorizeGuestHotel
    simp only [hres]
    have hfl : jsFalsy (some (.num n)) = false := by
      simp [jsFalsy, hn]
    simp only [hfl, hacc]
    rfl

/-- Closed instance of C7: params takes priority over body; a non-numeric hotel id
given to the guest branch is a 400; a denied admin predicate is a 403. -/
theorem C7_hotel_scoping_witness :
    resolveHotelId (some "9".data) (some "3".data) none = some (parseIntJS "9".data) ∧
    authorizeGuestHotel dbEmpty false (some gReqW) (some "abc".data) none none =
      .reject 400 "Hotel ID required" ∧
    authorizeAdminHotel dbEmpty false (some aReqW) (some "9".data) none none =
      .reject 403 "Access denied to this hotel" :=
  ⟨(C7_hotel_scoping dbEmpty false aReqW gReqW (some "9".data) (some "3".data)
      none).1 (by decide),
   (C7_hotel_scoping dbEmpty false aReqW gReqW (some "abc".data) none
      none).2.2.2.2.2.1 (by decide),
   (C7_hotel_scoping dbEmpty false aReqW gReqW (some "9".data) none
      none).2.2.2.2.2.2.1 9 (by decide) (by decide) (by decide)⟩

/-- Renaming a guest record by id preserves the result of an email search up to
that same renaming. -/
theorem find?_email_map_rename (l : List Guest) (email nm : String) (gid : Nat) :
    (l.map (fun x => if x.id = gid then { x with name := nm } else x)).find?
        (fun x => x.email = email) =
      (l.find? (fun x => x.email = email)).map
        (fun x => if x.id = gid then { x with name := nm } else x) := by
  rw [List.find?_map]
  have hp : ((fun x : Guest => decide (x.email = email)) ∘
      (fun x : Guest => if x.id = gid then { x with name := nm } else x)) =
      (fun x : Guest => decide (x.email = email)) := by
    funext x
    by_cases h : x.id = gid <;> simp [h]
  rw [hp]

/-- Branch equation: `findOrCreateGuest` on a store without the email. -/
theorem findOrCreateGuest_absent (db : DB) (email name : String)
    (hg : db.guests.find? (fun x => x.email = email) = none) :
    findOrCreateGuest db email name =
      ((true, some db.nextGuestId, "Guest created successfully"),
        { db with guests := db.guests ++ [⟨db.nextGuestId, name, email⟩],
                  nextGuestId := db.nextGuestId + 1 }) := by
  unfold findOrCreateGuest
  rw [hg]

/-- Branch equation: `findOrCreateGuest` on a store holding the email. -/
theorem findOrCreateGuest_found (db : DB) (email name : String) (g : Guest)
    (hg : db.guests.find? (fun x => x.email = email) = some g) :
    findOrCreateGuest db email name =
      if name ≠ "" ∧ g.name ≠ name then
        ((true, some g.id, "Guest found"),
          { db with guests :=
              db.guests.map (fun x => if x.id = g.id then { x with name := name } else x) })
      else ((true, some g.id, "Guest found"), db) := by
  unfold findOrCreateGuest
  rw [hg]

/-- C8: `findOrCreateGuest` is an upsert keyed by email: on a store without the
email a guest with that email and name is created and its id returned; on a
store holding the email the stored guest's id is returned, the stored name is
updated exactly when the provided (non-empty) name differs, and any subsequent
call with the same email returns the same guestId. -/
theorem C8_findOrCreateGuest_upsert (db : DB) (email name : String)
    (hname : name ≠ "") :
    (db.guests.find? (fun g => g.email = email) = none →
      (findOrCreateGuest db email name).1 =
        (true, some db.nextGuestId, "Guest created successfully") ∧
      (⟨db.nextGuestId, name, email⟩ : Guest) ∈ (findOrCreateGuest db email name).2.guests) ∧
    (∀ g, db.guests.find? (fun x => x.email = email) = some g →
      (findOrCreateGuest db email name).1 = (true, some g.id, "Guest found") ∧
      (g.name = name → (findOrCreateGuest db email name).2 = db) ∧
      (g.name ≠ name → (findOrCreateGuest db email name).2.guests =
        db.guests.map (fun x => if x.id = g.id then { x with name := name } else x))) ∧
    (∀ name₂ : String,
      (findOrCreateGuest (findOrCreateGuest db email name).2 email name₂).1.2.1 =
        (findOrCreateGuest db email name).1.2.1) := by
  refine ⟨?_, ?_, ?_⟩
  · intro habs
    rw [findOrCreateGuest_absent db email name habs]
    exact ⟨rfl, by simp⟩
  · intro g hg
    rw [findOrCreateGuest_found db email name g hg]
    by_cases hdiff : g.name = name
    · rw [if_neg (by simp [hdiff])]
      exact ⟨rfl, fun _ => rfl, fun hne => absurd hdiff hne⟩
    · rw [if_pos ⟨hname, hdiff⟩]
      exact ⟨rfl, fun heq => absurd heq hdiff, fun _ => rfl⟩
  · intro name₂
    cases hg : db.guests.find? (fun x => x.email = email) with
    | none =>
      rw [findOrCreateGuest_absent db email name hg]
      have hfind2 : (db.guests ++ [(⟨db.nextGuestId, name, email⟩ : Guest)]).find?
          (fun x => x.email = email) = some ⟨db.nextGuestId, name, email⟩ := by
        rw [List.find?_append, hg]
        simp
      rw [findOrCreateGuest_found _ email name₂ _ hfind2]
      by_cases h2 : name₂ ≠ "" ∧ name ≠ name₂
      · rw [if_pos (by simpa using h2)]
      · rw [if_neg (by simpa using h2)]
    | some g =>
      rw [findOrCreateGuest_found db email name g hg]
      by_cases hdiff : g.name = name
      · rw [if_neg (by simp [hdiff])]
        rw [findOrCreateGuest_found db email name₂ g hg]
        by_cases h2 : name₂ ≠ "" ∧ g.name ≠ name₂
        · rw [if_pos h2]
        · rw [if_neg h2]
      · rw [if_pos ⟨hname, hdiff⟩]
        have hfind2 : (db.guests.map
            (fun x => if x.id = g.id then { x with name := name } else x)).find?
            (fun x => x.email = email) = some { g with name := name } := by
          rw [find?_email_map_rename, hg]
          simp
        rw [findOrCreateGuest_found _ email name₂ _ hfind2]
        by_cases h2 : name₂ ≠ "" ∧ ({ g with name := name } : Guest).name ≠ name₂
        · rw [if_pos h2]
        · rw [if_neg h2]

/-- Closed instance of C8, the Alice/Alicia scenario: first login creates the
guest, second login with a changed name returns the same id and updates the
stored name. -/
theorem C8_findOrCreateGuest_upsert_witness :
    (findOrCreateGuest dbEmpty "g@x.com" "Alice").1 =
      (true, some 1, "Guest created successfully") ∧
    ((⟨1, "Alice", "g@x.com"⟩ : Guest) ∈
      (findOrCreateGuest dbEmpty "g@x.com" "Alice").2.guests) ∧
    (findOrCreateGuest (findOrCreateGuest dbEmpty "g@x.com" "Alice").2 "g@x.com"
        "Alicia").1.2.1 = (findOrCreateGuest dbEmpty "g@x.com" "Alice").1.2.1 ∧
    (findOrCreateGuest (findOrCreateGuest dbEmpty "g@x.com" "Alice").2 "g@x.com"
        "Alicia").2.guests = [⟨1, "Alicia", "g@x.com"⟩] :=
  ⟨((C8_findOrCreateGuest_upsert dbEmpty "g@x.com" "Alice" (by decide)).1 (by decide)).1,
   ((C8_findOrCreateGuest_upsert dbEmpty "g@x.com" "Alice" (by decide)).1 (by decide)).2,
   (C8_findOrCreateGuest_upsert dbEmpty "g@x.com" "Alice" (by decide)).2.2 "Alicia",
   by decide⟩

/-- C10: the hotel-access predicates fail closed.  `verifyAdminHotelAccess` is
true exactly when the repository call does not fail, an admin with the given id
exists (ids unique per the schema's primary key) and its stored hotelId equals
the requested one; `verifyGuestHotelAccess` is true exactly when the repository
call does not fail and at least one order by that guest at that hotel exists;
and under repository failure both predicates return false (the catch branch) —
an error can never grant access. -/
theorem C10_access_predicates_fail_closed (db : DB) (rt : Bool)
    (adminId guestId : Nat) (hotelId : Int)
    (hnodup : (db.admins.map (fun a => a.id)).Nodup) :
    (verifyAdminHotelAccess db rt adminId hotelId = true ↔
      rt = false ∧ ∃ a ∈ db.admins, a.id = adminId ∧ (a.hotelId : Int) = hotelId) ∧
    (verifyGuestHotelAccess db rt guestId hotelId = true ↔
      rt = false ∧ ∃ o ∈ db.orders, o.guestId = guestId ∧ (o.hotelId : Int) = hotelId) ∧
    (rt = true → verifyAdminHotelAccess db rt adminId hotelId = false ∧
      verifyGuestHotelAccess db rt guestId hotelId = false) := by
  refine ⟨?_, ?_, ?_⟩
  · constructor
    · intro h
      unfold verifyAdminHotelAccess at h
      cases rt with
      | true => simp at h
      | false =>
        rw [if_neg (by simp)] at h
        refine ⟨rfl, ?_⟩
        cases hf : getAdminById db adminId with
        | none => rw [hf] at h; cases h
        | some a =>
          rw [hf] at h
          have hmem := List.mem_of_find?_eq_some hf
          have hpred := List.find?_some hf
          simp at hpred h
          exact ⟨a, hmem, hpred, h⟩
    · rintro ⟨hrt, a, hmem, hid, hhot⟩
      subst hrt
      unfold verifyAdminHotelAccess
      rw [if_neg (by simp)]
      have hsome : (getAdminById db adminId).isSome = true := by
        unfold getAdminById
        rw [List.find?_isSome]
        exact ⟨a, hmem, by simp [hid]⟩
      obtain ⟨b, hb⟩ := Option.isSome_iff_exists.1 hsome
      rw [hb]
      have hbmem := List.mem_of_find?_eq_some hb
      have hbpred := List.find?_some hb
      simp at hbpred
      have hba : b = a :=
        List.inj_on_of_nodup_map hnodup hbmem hmem (by rw [hbpred, hid])
      subst hba
      simp [hhot]
  · constructor
    · intro h
      unfold verifyGuestHotelAccess at h
      cases rt with
      | true => simp at h
      | false =>
        rw [if_neg (by simp)] at h
        refine ⟨rfl, ?_⟩
        cases hf : db.orders.find? (fun o => o.guestId = guestId && (o.hotelId : Int) = hotelId) with
        | none => rw [hf] at h; cases h
        | some o =>
          have hmem := List.mem_of_find?_eq_some hf
          have hpred := List.find?_some hf
          simp at hpred
          exact ⟨o, hmem, hpred⟩
    · rintro ⟨hrt, o, hmem, hgid, hhot⟩
      subst hrt
      unfold verifyGuestHotelAccess
      rw [if_neg (by simp)]
      rw [List.find?_isSome]
      exact ⟨o, hmem, by simp [hgid, hhot]⟩
  · intro hrt
    subst hrt
    constructor
    · unfold verifyAdminHotelAccess
      rw [if_pos rfl]
    · unfold verifyGuestHotelAccess
      rw [if_pos rfl]

/-- Closed instance of C10: the stored admin of hotel 7 passes, a repository
failure denies the guest even though a matching order exists. -/
theorem C10_access_predicates_fail_closed_witness :
    verifyAdminHotelAccess dbW false 1 7 = true ∧
    verifyGuestHotelAccess dbW true 2 7 = false :=
  ⟨(C10_access_predicates_fail_closed dbW false 1 2 7 (by decide)).1.mpr
      ⟨rfl, admW, by decide, by decide, by decide⟩,
   ((C10_access_predicates_fail_closed dbW true 1 2 7 (by decide)).2.2 rfl).2⟩
